import Mathlib

/-!
# Pseudo-random generators of `cpp/generate_sequence.cpp`

A shallow embedding of the three hand-written generators (`LCG`, `RANDU`,
`Xorshift32`), of `parse_type` and of the driver `main`.

Conventions of the embedding:

* `uint64_t` and `uint32_t` values are natural numbers; every C++ operation that
  can wrap is followed by an explicit `% 2 ^ 64` or `% 2 ^ 32`, and the theorems
  take the range of the stored values as hypotheses.
* A member function that mutates the generator returns the produced value
  together with the new generator.
* `LCG::next_u32` divides by the stored modulus; for `m = 0` the C++ behaviour is
  undefined, which the embedding renders as `none`.
* `next_double` divides two `double`s.  The embedding keeps the exact quotient of
  the two integers in `ℚ`; rounding of the division is not modelled.
-/

namespace SpectralPrng

/-! ## LCG -/

/-- The `struct LCG`: multiplier, increment, modulus and current state. -/
structure LCG where
  a : Nat
  c : Nat
  m : Nat
  state : Nat
deriving DecidableEq

/-- The constructor `LCG(seed, a_, c_, m_)`: the seed is stored as it is. -/
def LCG.new (seed a_ c_ m_ : Nat) : LCG :=
  { a := a_, c := c_, m := m_, state := seed }

/-- The constructor with its default arguments, `LCG(seed)`, as `main` calls it:
`a_ = 1664525ULL`, `c_ = 1013904223ULL`, `m_ = (1ULL << 32)`. -/
def LCG.default (seed : Nat) : LCG :=
  LCG.new seed 1664525 1013904223 ((1 <<< 32) % 2 ^ 64)

/-- `LCG::next_u32`: `state = (a * state + c) % m` in `uint64_t` arithmetic (the
product and the sum each wrap at `2 ^ 64`), then the new state cast to
`uint32_t` is returned. -/
def LCG.next_u32 (g : LCG) : Option (Nat × LCG) :=
  if g.m = 0 then none
  else
    let state := (((g.a * g.state) % 2 ^ 64 + g.c) % 2 ^ 64) % g.m
    some (state % 2 ^ 32, { g with state := state })

/-- `LCG::next_double`: the value of `next_u32()` divided by the generator's own
modulus `m`. -/
def LCG.next_double (g : LCG) : Option (ℚ × LCG) :=
  match g.next_u32 with
  | none => none
  | some (u, g') => some ((u : ℚ) / (g'.m : ℚ), g')

/-- The values of `n` successive `next_u32` calls, in order, and the generator
they leave behind. -/
def LCG.run : Nat → LCG → Option (List Nat × LCG)
  | 0, g => some ([], g)
  | n + 1, g =>
    match g.next_u32 with
    | none => none
    | some (u, g') =>
      match LCG.run n g' with
      | none => none
      | some (us, g2) => some (u :: us, g2)

/-! ## RANDU -/

/-- The `struct RANDU`: only the current state, a `uint32_t`. -/
structure RANDU where
  state : Nat
deriving DecidableEq

/-- The constructor `RANDU(uint32_t seed)`. -/
def RANDU.new (seed : Nat) : RANDU :=
  { state := seed }

/-- `RANDU::next_u32`: with `a = 65539ULL` and `m = (1ULL << 31)`, the product
`a * state` is formed in `uint64_t`, reduced modulo `m`, cast to `uint32_t`,
stored and returned. -/
def RANDU.next_u32 (r : RANDU) : Nat × RANDU :=
  let a := 65539
  let m := (1 <<< 31) % 2 ^ 64
  let state := (((a * r.state) % 2 ^ 64) % m) % 2 ^ 32
  (state, { state := state })

/-- `RANDU::next_double`: the value of `next_u32()` divided by `2 ^ 31`. -/
def RANDU.next_double (r : RANDU) : ℚ × RANDU :=
  let m : ℚ := (((1 <<< 31) % 2 ^ 64 : Nat) : ℚ)
  let p := r.next_u32
  ((p.1 : ℚ) / m, p.2)

/-- The values of `n` successive `next_u32` calls and the final generator. -/
def RANDU.run : Nat → RANDU → List Nat × RANDU
  | 0, r => ([], r)
  | n + 1, r =>
    let p := r.next_u32
    let q := RANDU.run n p.2
    (p.1 :: q.1, q.2)

/-! ## Xorshift32 -/

/-- The `struct Xorshift32`: only the current state, a `uint32_t`. -/
structure Xorshift32 where
  state : Nat
deriving DecidableEq

/-- The constructor `Xorshift32(uint32_t seed)`: `state(seed ? seed : 1u)`. -/
def Xorshift32.new (seed : Nat) : Xorshift32 :=
  { state := if seed ≠ 0 then seed else 1 }

/-- The body of `Xorshift32::next_u32` on the 32-bit value `x`:
`x ^= x << 13; x ^= x >> 17; x ^= x << 5;`, the left shifts wrapping at 32
bits. -/
def Xorshift32.step (x : Nat) : Nat :=
  let x1 := x ^^^ ((x <<< 13) % 2 ^ 32)
  let x2 := x1 ^^^ (x1 >>> 17)
  let x3 := x2 ^^^ ((x2 <<< 5) % 2 ^ 32)
  x3

/-- `Xorshift32::next_u32`: the stepped state is stored and returned. -/
def Xorshift32.next_u32 (g : Xorshift32) : Nat × Xorshift32 :=
  let x := Xorshift32.step g.state
  (x, { state := x })

/-- `Xorshift32::next_double`: the value of `next_u32()` divided by
`UINT32_MAX`. -/
def Xorshift32.next_double (g : Xorshift32) : ℚ × Xorshift32 :=
  let p := g.next_u32
  ((p.1 : ℚ) / ((4294967295 : Nat) : ℚ), p.2)

/-- The values of `n` successive `next_u32` calls and the final generator. -/
def Xorshift32.run : Nat → Xorshift32 → List Nat × Xorshift32
  | 0, g => ([], g)
  | n + 1, g =>
    let p := g.next_u32
    let q := Xorshift32.run n p.2
    (p.1 :: q.1, q.2)

/-! ## Seeding in `main` -/

/-- The cast `static_cast<uint32_t>(seed)` of a `uint64_t`. -/
def narrow32 (seed : Nat) : Nat :=
  seed % 2 ^ 32

/-- The generator of `case PRNGType::LCG`: `LCG rng(seed)`. -/
def mainLCG (seed : Nat) : LCG :=
  LCG.default seed

/-- The generator of `case PRNGType::RANDU`:
`RANDU rng(static_cast<uint32_t>(seed))`. -/
def mainRANDU (seed : Nat) : RANDU :=
  RANDU.new (narrow32 seed)

/-- The generator of `case PRNGType::XORSHIFT32`:
`Xorshift32 rng(static_cast<uint32_t>(seed))`. -/
def mainXorshift32 (seed : Nat) : Xorshift32 :=
  Xorshift32.new (narrow32 seed)

/-! ## The driver

`main` reads `argv`, so the embedding takes the argument vector as a list of
strings.  Two things lie outside the repository and are parameters of the
embedding (`Env`): whether the output path can be opened, and the values the
standard library's `std::mt19937` with `std::uniform_real_distribution` yields.
`std::stoull` is rendered after its description in the C++ standard (base 10).
A value line `out << rng.next_double() << "\n"` is kept as the value written;
the decimal rendering of a `double` is not modelled. -/

/-- The `enum class PRNGType`. -/
inductive PRNGType
  | LCG
  | RANDU
  | XORSHIFT32
  | MT19937
deriving DecidableEq

/-- `parse_type`: four exact string comparisons in order, and otherwise the
`std::runtime_error` whose message is `"Unknown generator type: " + name`. -/
def parse_type (name : String) : Except String PRNGType :=
  if name = "lcg" then Except.ok PRNGType.LCG
  else if name = "randu" then Except.ok PRNGType.RANDU
  else if name = "xorshift32" then Except.ok PRNGType.XORSHIFT32
  else if name = "mt19937" then Except.ok PRNGType.MT19937
  else Except.error ("Unknown generator type: " ++ name)

/-- The two exceptions `std::stoull` can throw. -/
inductive StoullError
  | invalid_argument
  | out_of_range
deriving DecidableEq

/-- The characters `isspace` accepts in the "C" locale: space and the controls
9 to 13. -/
def isSpaceChar (ch : Char) : Bool :=
  ch.toNat = 32 || (9 ≤ ch.toNat && ch.toNat ≤ 13)

/-- The decimal digits `0` to `9`. -/
def isDigitChar (ch : Char) : Bool :=
  48 ≤ ch.toNat && ch.toNat ≤ 57

/-- The number a run of decimal digits denotes. -/
def digitsValue (ds : List Char) : Nat :=
  ds.foldl (fun acc d => 10 * acc + (d.toNat - 48)) 0

/-- `std::stoull(str)` with its default arguments (`pos = nullptr`, base 10):
leading white space is skipped, one optional sign is read, then the longest run
of decimal digits; what follows the digits is ignored.  With no digit at all
`std::invalid_argument` is thrown, with a number above `2 ^ 64 - 1`
`std::out_of_range`; after a minus sign the value is negated in
`unsigned long long`. -/
def stoull (str : String) : Except StoullError Nat :=
  let cs := str.toList.dropWhile isSpaceChar
  let neg : Bool :=
    match cs with
    | ch :: _ => ch.toNat = 45
    | [] => false
  let rest : List Char :=
    match cs with
    | ch :: tl => if ch.toNat = 45 || ch.toNat = 43 then tl else cs
    | [] => []
  let ds := rest.takeWhile isDigitChar
  if ds.isEmpty then Except.error StoullError.invalid_argument
  else if 2 ^ 64 ≤ digitsValue ds then Except.error StoullError.out_of_range
  else if neg then Except.ok ((2 ^ 64 - digitsValue ds) % 2 ^ 64)
  else Except.ok (digitsValue ds)

/-- What lies outside the repository: whether `std::ofstream out(out_path)`
succeeds, and the `i`-th value `dist(rng)` of a `std::mt19937` seeded with a
32-bit value. -/
structure Env where
  openable : String → Bool
  mt19937 : Nat → Nat → ℚ

/-- One newline-terminated line of the output: a literal text, or a value
written with `operator<<`. -/
inductive Line
  | text (s : String)
  | value (v : ℚ)
deriving DecidableEq

/-- How a run of `main` ends.  `returned status err file`: `main` returned
`status`, wrote `err` to `std::cerr`, and `file` holds the lines written to
the output, `none` when no output stream was opened.  `terminated e`: the
exception `e` left `main` (thrown by `std::stoull`, outside every `try`), so the
process was ended by `std::terminate` at that statement.  `undefined`: a
division by a zero modulus. -/
inductive Outcome
  | returned (status : Nat) (err : List String) (file : Option (List Line))
  | terminated (e : StoullError)
  | undefined
deriving DecidableEq

/-- The loop `for (i = 0; i < N; ++i) out << rng.next_double()` on an `LCG`: the
values in the order they are written, and the generator left behind. -/
def LCG.doubles : Nat → LCG → Option (List ℚ × LCG)
  | 0, g => some ([], g)
  | n + 1, g =>
    match g.next_double with
    | none => none
    | some (v, g') =>
      match LCG.doubles n g' with
      | none => none
      | some (vs, g2) => some (v :: vs, g2)

/-- The same loop on a `RANDU`. -/
def RANDU.doubles : Nat → RANDU → List ℚ × RANDU
  | 0, r => ([], r)
  | n + 1, r =>
    let p := r.next_double
    let q := RANDU.doubles n p.2
    (p.1 :: q.1, q.2)

/-- The same loop on a `Xorshift32`. -/
def Xorshift32.doubles : Nat → Xorshift32 → List ℚ × Xorshift32
  | 0, g => ([], g)
  | n + 1, g =>
    let p := g.next_double
    let q := Xorshift32.doubles n p.2
    (p.1 :: q.1, q.2)

/-- The usage text written when fewer than five `argv` entries are given. -/
def usage (prog : String) : String :=
  "Usage: " ++ prog ++ " <generator> <seed> <N> <output.csv>\n"
    ++ "  <generator> in \x7blcg, randu, xorshift32, mt19937\x7d\n"

/-- The function `main`, on `argv` (the program name first).  The statements run
in the source's order: the argument count, `std::stoull` on `argv[2]` and on
`argv[3]`, `parse_type` inside its `try`, the opening of the output, the header
line, and the loop of the selected generator. -/
def main (env : Env) (argv : List String) : Outcome :=
  match argv with
  | _ :: gen_name :: seedText :: countText :: out_path :: _ =>
    match stoull seedText with
    | Except.error e => Outcome.terminated e
    | Except.ok seed =>
      match stoull countText with
      | Except.error e => Outcome.terminated e
      | Except.ok N =>
        match parse_type gen_name with
        | Except.error what => Outcome.returned 1 [what ++ "\n"] none
        | Except.ok type =>
          if env.openable out_path = false then
            Outcome.returned 1 ["Cannot open output file: " ++ out_path ++ "\n"] none
          else
            match type with
            | PRNGType.LCG =>
              match LCG.doubles N (mainLCG seed) with
              | none => Outcome.undefined
              | some (vs, _) =>
                Outcome.returned 0 [] (some (Line.text "x" :: vs.map Line.value))
            | PRNGType.RANDU =>
              Outcome.returned 0 []
                (some (Line.text "x"
                  :: (RANDU.doubles N (mainRANDU seed)).1.map Line.value))
            | PRNGType.XORSHIFT32 =>
              Outcome.returned 0 []
                (some (Line.text "x"
                  :: (Xorshift32.doubles N (mainXorshift32 seed)).1.map Line.value))
            | PRNGType.MT19937 =>
              Outcome.returned 0 []
                (some (Line.text "x"
                  :: (List.range N).map (fun i => Line.value (env.mt19937 (narrow32 seed) i))))
  | _ => Outcome.returned 1 [usage (argv.headD "")] none

/-! ## Auxiliary facts -/

theorem LCG.default_eq (seed : Nat) :
    LCG.default seed
      = { a := 1664525, c := 1013904223, m := 4294967296, state := seed } := by
  rfl

theorem LCG.next_u32_default (s : Nat) :
    (LCG.default s).next_u32
      = some ((1664525 * s + 1013904223) % 2 ^ 32,
          LCG.default ((1664525 * s + 1013904223) % 2 ^ 32)) := by
  simp only [LCG.default_eq, LCG.next_u32]
  norm_num

/-- After at least one draw the default generator is again a default generator,
now with a state below `2 ^ 32`; the run never fails. -/
theorem LCG.run_default_succ (n s : Nat) :
    ∃ us s', LCG.run (n + 1) (LCG.default s) = some (us, LCG.default s')
      ∧ us.length = n + 1 ∧ s' < 2 ^ 32 := by
  induction n generalizing s with
  | zero =>
    refine ⟨[(1664525 * s + 1013904223) % 2 ^ 32],
      (1664525 * s + 1013904223) % 2 ^ 32, ?_, rfl, Nat.mod_lt _ (by norm_num)⟩
    simp [LCG.run, LCG.next_u32_default]
  | succ k ih =>
    obtain ⟨us, s', hrun, hlen, hs'⟩ := ih ((1664525 * s + 1013904223) % 2 ^ 32)
    refine ⟨(1664525 * s + 1013904223) % 2 ^ 32 :: us, s', ?_, by simp [hlen], hs'⟩
    rw [LCG.run, LCG.next_u32_default]
    simp only [hrun]

/-- When the product and the sum fit in 64 bits, `next_u32` stores the exact
`(a * state + c) mod m`. -/
theorem LCG.next_u32_of_no_wrap (g : LCG) (hm : 0 < g.m)
    (h : g.a * g.state + g.c < 2 ^ 64) :
    g.next_u32 = some (((g.a * g.state + g.c) % g.m) % 2 ^ 32,
      { g with state := (g.a * g.state + g.c) % g.m }) := by
  have hne : g.m ≠ 0 := Nat.pos_iff_ne_zero.mp hm
  have h1 : (g.a * g.state) % 2 ^ 64 = g.a * g.state :=
    Nat.mod_eq_of_lt (lt_of_le_of_lt (Nat.le_add_right _ _) h)
  have h2 : (g.a * g.state + g.c) % 2 ^ 64 = g.a * g.state + g.c :=
    Nat.mod_eq_of_lt h
  simp only [LCG.next_u32, if_neg hne, h1, h2]

theorem RANDU.next_u32_eq (r : RANDU) (h : r.state < 2 ^ 32) :
    r.next_u32 = ((65539 * r.state) % 2 ^ 31, RANDU.new ((65539 * r.state) % 2 ^ 31)) := by
  have e : (((65539 * r.state) % 2 ^ 64) % ((1 <<< 31) % 2 ^ 64)) % 2 ^ 32
      = (65539 * r.state) % 2 ^ 31 := by
    have hm : (1 <<< 31) % 2 ^ 64 = 2 ^ 31 := by decide
    have hp : (65539 * r.state) % 2 ^ 64 = 65539 * r.state :=
      Nat.mod_eq_of_lt (by omega)
    have hc : ((65539 * r.state) % 2 ^ 31) % 2 ^ 32 = (65539 * r.state) % 2 ^ 31 :=
      Nat.mod_eq_of_lt (by omega)
    rw [hm, hp, hc]
  simp only [RANDU.next_u32, RANDU.new, e]

theorem RANDU.run_succ_state_lt (n : Nat) (r : RANDU) (h : r.state < 2 ^ 32) :
    (RANDU.run (n + 1) r).2.state < 2 ^ 31 := by
  induction n generalizing r with
  | zero =>
    simp only [RANDU.run, RANDU.next_u32_eq r h, RANDU.new]
    omega
  | succ k ih =>
    rw [RANDU.run]
    apply ih
    simp only [RANDU.next_u32_eq r h, RANDU.new]
    omega

theorem RANDU.run_zero (r : RANDU) : RANDU.run 0 r = ([], r) := rfl

/-- A 32-bit value that equals its own left shift by 13 (wrapped) is zero. -/
theorem shl13_fixed (z : Nat) (h : z = (z <<< 13) % 2 ^ 32) : z = 0 := by
  rw [Nat.shiftLeft_eq] at h
  omega

/-- A 32-bit value that equals its own left shift by 5 (wrapped) is zero. -/
theorem shl5_fixed (z : Nat) (h : z = (z <<< 5) % 2 ^ 32) : z = 0 := by
  rw [Nat.shiftLeft_eq] at h
  omega

/-- A value that equals its own right shift by 17 is zero. -/
theorem shr17_fixed (z : Nat) (h : z = z >>> 17) : z = 0 := by
  rw [Nat.shiftRight_eq_div_pow] at h
  omega

/-- The xorshift step sends only zero to zero. -/
theorem Xorshift32.step_eq_zero (x : Nat) (h : Xorshift32.step x = 0) : x = 0 := by
  simp only [Xorshift32.step] at h
  have h2 := shl5_fixed _ (Nat.xor_eq_zero.mp h)
  have h1 := shr17_fixed _ (Nat.xor_eq_zero.mp h2)
  exact shl13_fixed _ (Nat.xor_eq_zero.mp h1)

/-- The xorshift step keeps a 32-bit value within 32 bits. -/
theorem Xorshift32.step_lt (x : Nat) (h : x < 2 ^ 32) : Xorshift32.step x < 2 ^ 32 := by
  have h1 : x ^^^ ((x <<< 13) % 2 ^ 32) < 2 ^ 32 :=
    Nat.xor_lt_two_pow h (Nat.mod_lt _ (by norm_num))
  have h2 : (x ^^^ ((x <<< 13) % 2 ^ 32)) >>> 17 < 2 ^ 32 :=
    lt_of_le_of_lt (by rw [Nat.shiftRight_eq_div_pow]; exact Nat.div_le_self _ _) h1
  exact Nat.xor_lt_two_pow (Nat.xor_lt_two_pow h1 h2) (Nat.mod_lt _ (by norm_num))

theorem Xorshift32.run_state_ne_zero (n : Nat) (g : Xorshift32) (h : g.state ≠ 0) :
    (Xorshift32.run n g).2.state ≠ 0 ∧ ∀ u ∈ (Xorshift32.run n g).1, u ≠ 0 := by
  induction n generalizing g with
  | zero => exact ⟨h, by simp [Xorshift32.run]⟩
  | succ k ih =>
    have hs : Xorshift32.step g.state ≠ 0 := fun e => h (Xorshift32.step_eq_zero _ e)
    obtain ⟨ih1, ih2⟩ := ih (g.next_u32).2 hs
    refine ⟨ih1, ?_⟩
    intro u hu
    simp only [Xorshift32.run, List.mem_cons] at hu
    rcases hu with rfl | hu
    · exact hs
    · exact ih2 u hu

/-! ## The claims -/

/-- C1: for the default constants and every state `s` (in particular every
64-bit one, seeds of `2 ^ 32` and more included), `next_u32` stores
`(1664525 * s + 1013904223) mod 2 ^ 32`, the wraparound of the 64-bit product
and sum changing nothing, and returns that value; from seed 0 the first two
values are `1013904223` and `(1664525 * 1013904223 + 1013904223) mod 2 ^ 32`. -/
theorem lcg_default_next_u32_exact (s : Nat) :
    (LCG.default s).next_u32
        = some ((1664525 * s + 1013904223) % 2 ^ 32,
            { a := 1664525, c := 1013904223, m := 2 ^ 32,
              state := (1664525 * s + 1013904223) % 2 ^ 32 })
      ∧ (LCG.run 2 (mainLCG 0)).map Prod.fst
        = some [1013904223, (1664525 * 1013904223 + 1013904223) % 2 ^ 32] := by
  refine ⟨?_, by decide⟩
  rw [LCG.next_u32_default]
  rfl

/-- C3, as stated, fails right after construction: the generator `main` builds
from the 64-bit seed `2 ^ 32` has made no draw yet and its state `2 ^ 32` is not
below its modulus `2 ^ 32`. -/
theorem lcg_state_not_lt_m_at_construction :
    (4294967296 : Nat) < 2 ^ 64
      ∧ LCG.run 0 (mainLCG 4294967296) = some ([], mainLCG 4294967296)
      ∧ (mainLCG 4294967296).m = 2 ^ 32
      ∧ ¬ (mainLCG 4294967296).state < (mainLCG 4294967296).m := by
  decide

/-- C3, amended: the constructor stores the seed as it is, and for every seed
the default-constant generator has `state < m = 2 ^ 32` after each of `n >= 1`
draws, and already after construction when the seed itself is below `2 ^ 32`;
no draw fails. -/
theorem lcg_state_lt_m (seed n : Nat) (h : 0 < n ∨ seed < 2 ^ 32) :
    (mainLCG seed).state = seed
      ∧ ∃ us g, LCG.run n (mainLCG seed) = some (us, g)
          ∧ g.m = 2 ^ 32 ∧ g.state < g.m := by
  refine ⟨rfl, ?_⟩
  cases n with
  | zero =>
    rcases h with h | h
    · exact absurd h (Nat.lt_irrefl 0)
    · exact ⟨[], mainLCG seed, rfl, rfl, h⟩
  | succ k =>
    obtain ⟨us, s', hrun, _, hs'⟩ := LCG.run_default_succ k seed
    exact ⟨us, LCG.default s', hrun, rfl, hs'⟩

theorem lcg_state_lt_m_witness :
    (0 < 1 ∨ 4294967296 < 2 ^ 32)
      ∧ ((mainLCG 4294967296).state = 4294967296
        ∧ ∃ us g, LCG.run 1 (mainLCG 4294967296) = some (us, g)
            ∧ g.m = 2 ^ 32 ∧ g.state < g.m) :=
  ⟨by decide, lcg_state_lt_m 4294967296 1 (by decide)⟩

/-- C4, as stated, fails right after construction: the seed `2 ^ 31` is
unchanged by the narrowing to 32 bits, and the state of the generator `main`
builds from it is `2 ^ 31`, not below `2 ^ 31`. -/
theorem randu_state_not_lt_at_construction :
    narrow32 2147483648 = 2147483648
      ∧ RANDU.run 0 (mainRANDU 2147483648) = ([], mainRANDU 2147483648)
      ∧ ¬ (mainRANDU 2147483648).state < 2 ^ 31 := by
  decide

/-- C4, amended: the constructor stores the narrowed seed as it is (a value
below `2 ^ 32`), and the state is below `2 ^ 31` after each of `n >= 1` draws,
and already after construction when the narrowed seed is below `2 ^ 31`. -/
theorem randu_state_lt (seed n : Nat) (h : 0 < n ∨ narrow32 seed < 2 ^ 31) :
    (mainRANDU seed).state = seed % 2 ^ 32
      ∧ (mainRANDU seed).state < 2 ^ 32
      ∧ (RANDU.run n (mainRANDU seed)).2.state < 2 ^ 31 := by
  have hlt : (mainRANDU seed).state < 2 ^ 32 := Nat.mod_lt _ (by norm_num)
  refine ⟨rfl, hlt, ?_⟩
  cases n with
  | zero =>
    rcases h with h | h
    · exact absurd h (Nat.lt_irrefl 0)
    · exact h
  | succ k => exact RANDU.run_succ_state_lt k _ hlt

theorem randu_state_lt_witness :
    (0 < 3 ∨ narrow32 2147483648 < 2 ^ 31)
      ∧ ((mainRANDU 2147483648).state = 2147483648 % 2 ^ 32
        ∧ (mainRANDU 2147483648).state < 2 ^ 32
        ∧ (RANDU.run 3 (mainRANDU 2147483648)).2.state < 2 ^ 31) :=
  ⟨by decide, randu_state_lt 2147483648 3 (by decide)⟩

/-- C5: for every 32-bit seed, zero included, the Xorshift32 state is a non-zero
32-bit value after construction and after `n` draws, for every `n`, none of the
`n` draws returns 0, and the 13/17/5 step sends every non-zero 32-bit value to
a non-zero one. -/
theorem xorshift32_state_never_zero (seed n : Nat) (hs : seed < 2 ^ 32) :
    (Xorshift32.new seed).state ≠ 0
      ∧ (Xorshift32.new seed).state < 2 ^ 32
      ∧ (Xorshift32.run n (Xorshift32.new seed)).2.state ≠ 0
      ∧ (∀ u ∈ (Xorshift32.run n (Xorshift32.new seed)).1, u ≠ 0)
      ∧ (∀ x, x < 2 ^ 32 → x ≠ 0 → Xorshift32.step x ≠ 0) := by
  have h0 : (Xorshift32.new seed).state ≠ 0 := by
    simp only [Xorshift32.new]
    split <;> simp_all
  have h1 : (Xorshift32.new seed).state < 2 ^ 32 := by
    simp only [Xorshift32.new]
    split
    · exact hs
    · norm_num
  obtain ⟨h2, h3⟩ := Xorshift32.run_state_ne_zero n _ h0
  exact ⟨h0, h1, h2, h3, fun x _ hx e => hx (Xorshift32.step_eq_zero x e)⟩

theorem xorshift32_state_never_zero_witness :
    (0 : Nat) < 2 ^ 32
      ∧ ((Xorshift32.new 0).state ≠ 0
        ∧ (Xorshift32.new 0).state < 2 ^ 32
        ∧ (Xorshift32.run 4 (Xorshift32.new 0)).2.state ≠ 0
        ∧ (∀ u ∈ (Xorshift32.run 4 (Xorshift32.new 0)).1, u ≠ 0)
        ∧ (∀ x, x < 2 ^ 32 → x ≠ 0 → Xorshift32.step x ≠ 0)) :=
  ⟨by decide, xorshift32_state_never_zero 0 4 (by decide)⟩

/-- C6: for every 32-bit state `s`, `RANDU::next_u32` stores and returns
`(65539 * s) mod 2 ^ 31`: the 64-bit product does not wrap and the cast to 32
bits changes nothing; from seed 1 the first value is 65539. -/
theorem randu_next_u32_exact (s : Nat) (hs : s < 2 ^ 32) :
    (RANDU.new s).next_u32
        = ((65539 * s) % 2 ^ 31, RANDU.new ((65539 * s) % 2 ^ 31))
      ∧ (65539 * s) % 2 ^ 64 = 65539 * s
      ∧ ((65539 * s) % 2 ^ 31) % 2 ^ 32 = (65539 * s) % 2 ^ 31
      ∧ (RANDU.new 1).next_u32 = (65539, RANDU.new 65539) := by
  refine ⟨RANDU.next_u32_eq (RANDU.new s) hs, ?_, ?_, by decide⟩
  · exact Nat.mod_eq_of_lt (by omega)
  · exact Nat.mod_eq_of_lt (by omega)

theorem randu_next_u32_exact_witness :
    (4294967295 : Nat) < 2 ^ 32
      ∧ ((RANDU.new 4294967295).next_u32
          = ((65539 * 4294967295) % 2 ^ 31, RANDU.new ((65539 * 4294967295) % 2 ^ 31))
        ∧ (65539 * 4294967295) % 2 ^ 64 = 65539 * 4294967295
        ∧ ((65539 * 4294967295) % 2 ^ 31) % 2 ^ 32 = (65539 * 4294967295) % 2 ^ 31
        ∧ (RANDU.new 1).next_u32 = (65539, RANDU.new 65539)) :=
  ⟨by decide, randu_next_u32_exact 4294967295 (by decide)⟩

/-- C7: for every seed the Xorshift32 generator `main` constructs holds the low
32 bits of the seed, or 1 when those are all zero; the seeds 0 and `2 ^ 32` give
the generator of seed 1, whose first `next_u32` is 270369, the 13/17/5 transform
of 1. -/
theorem xorshift32_seeding (seed : Nat) :
    (mainXorshift32 seed).state = (if seed % 2 ^ 32 = 0 then 1 else seed % 2 ^ 32)
      ∧ mainXorshift32 0 = mainXorshift32 1
      ∧ mainXorshift32 (2 ^ 32) = mainXorshift32 1
      ∧ (mainXorshift32 1).state = 1
      ∧ (mainXorshift32 1).next_u32 = (270369, { state := 270369 })
      ∧ Xorshift32.step 1 = 270369 := by
  refine ⟨?_, by decide, by decide, by decide, by decide, by decide⟩
  simp only [mainXorshift32, Xorshift32.new, narrow32]
  split <;> simp_all

/-- C8: for every LCG with modulus `m > 0`, whatever `a`, `c` and the state,
`next_u32` returns a value `u < m` and `next_double` returns the quotient
`u / m`, which lies in `[0, 1)`. -/
theorem lcg_next_double_range (g : LCG) (hm : 0 < g.m) :
    ∃ u g', g.next_u32 = some (u, g')
      ∧ u < g.m
      ∧ g.next_double = some ((u : ℚ) / (g.m : ℚ), g')
      ∧ 0 ≤ (u : ℚ) / (g.m : ℚ) ∧ (u : ℚ) / (g.m : ℚ) < 1 := by
  have hne : g.m ≠ 0 := Nat.pos_iff_ne_zero.mp hm
  have hu : ((((g.a * g.state) % 2 ^ 64 + g.c) % 2 ^ 64) % g.m) % 2 ^ 32 < g.m :=
    lt_of_le_of_lt (Nat.mod_le _ _) (Nat.mod_lt _ hm)
  have hmq : (0 : ℚ) < (g.m : ℚ) := by exact_mod_cast hm
  refine ⟨((((g.a * g.state) % 2 ^ 64 + g.c) % 2 ^ 64) % g.m) % 2 ^ 32,
    { g with state := (((g.a * g.state) % 2 ^ 64 + g.c) % 2 ^ 64) % g.m },
    ?_, hu, ?_, ?_, ?_⟩
  · simp [LCG.next_u32, hne]
  · simp [LCG.next_double, LCG.next_u32, hne]
  · exact div_nonneg (Nat.cast_nonneg _) (le_of_lt hmq)
  · rw [div_lt_one hmq]
    exact_mod_cast hu

theorem lcg_next_double_range_witness :
    0 < (LCG.new 2 (2 ^ 63) 5 3).m
      ∧ ∃ u g', (LCG.new 2 (2 ^ 63) 5 3).next_u32 = some (u, g')
        ∧ u < (LCG.new 2 (2 ^ 63) 5 3).m
        ∧ (LCG.new 2 (2 ^ 63) 5 3).next_double
            = some ((u : ℚ) / ((LCG.new 2 (2 ^ 63) 5 3).m : ℚ), g')
        ∧ 0 ≤ (u : ℚ) / ((LCG.new 2 (2 ^ 63) 5 3).m : ℚ)
        ∧ (u : ℚ) / ((LCG.new 2 (2 ^ 63) 5 3).m : ℚ) < 1 :=
  ⟨by decide, lcg_next_double_range (LCG.new 2 (2 ^ 63) 5 3) (by decide)⟩

/-- C9: for every RANDU state, `next_double` returns the value of `next_u32`
divided by `2 ^ 31`, and that quotient lies in `[0, 1)`. -/
theorem randu_next_double_range (r : RANDU) :
    r.next_double.1 = (r.next_u32.1 : ℚ) / (2 ^ 31 : ℚ)
      ∧ r.next_double.2 = r.next_u32.2
      ∧ r.next_u32.1 < 2 ^ 31
      ∧ 0 ≤ r.next_double.1 ∧ r.next_double.1 < 1 := by
  have hm : (1 <<< 31) % 2 ^ 64 = 2 ^ 31 := by decide
  have hu : r.next_u32.1 < 2 ^ 31 := by
    simp only [RANDU.next_u32, hm]
    exact lt_of_le_of_lt (Nat.mod_le _ _) (Nat.mod_lt _ (by norm_num))
  have e : r.next_double.1 = (r.next_u32.1 : ℚ) / (2 ^ 31 : ℚ) := by
    simp only [RANDU.next_double, hm]
    norm_num
  have hq : ((r.next_u32.1 : ℕ) : ℚ) < (2 ^ 31 : ℚ) := by exact_mod_cast hu
  refine ⟨e, rfl, hu, ?_, ?_⟩
  · rw [e]
    exact div_nonneg (Nat.cast_nonneg _) (by norm_num)
  · rw [e, div_lt_one (by norm_num)]
    exact hq

/-- C10: for every 32-bit Xorshift32 state, `next_double` returns the value of
`next_u32` divided by `2 ^ 32 - 1`, a quotient in `[0, 1]`; and the upper end is
reached: from the non-zero 32-bit seed 1584200935 the first `next_u32` is
`0xFFFFFFFF` and `next_double` is exactly 1. -/
theorem xorshift32_next_double_range (g : Xorshift32) (h : g.state < 2 ^ 32) :
    g.next_double.1 = (g.next_u32.1 : ℚ) / (2 ^ 32 - 1 : ℚ)
      ∧ 0 ≤ g.next_double.1 ∧ g.next_double.1 ≤ 1
      ∧ ∃ seed, seed ≠ 0 ∧ seed < 2 ^ 32
          ∧ (Xorshift32.new seed).next_u32.1 = 4294967295
          ∧ (Xorshift32.new seed).next_double.1 = 1 := by
  have hu : g.next_u32.1 < 2 ^ 32 := Xorshift32.step_lt _ h
  have e : g.next_double.1 = (g.next_u32.1 : ℚ) / (2 ^ 32 - 1 : ℚ) := by
    simp only [Xorshift32.next_double]
    norm_num
  have hq : ((g.next_u32.1 : ℕ) : ℚ) ≤ (2 ^ 32 - 1 : ℚ) := by
    have : g.next_u32.1 ≤ 4294967295 := by omega
    have h' : ((g.next_u32.1 : ℕ) : ℚ) ≤ ((4294967295 : ℕ) : ℚ) := by exact_mod_cast this
    norm_num at h' ⊢
    exact h'
  refine ⟨e, ?_, ?_, 1584200935, by decide, by decide, by decide, ?_⟩
  · rw [e]
    exact div_nonneg (Nat.cast_nonneg _) (by norm_num)
  · rw [e, div_le_one (by norm_num)]
    exact hq
  · have h1 : (Xorshift32.new 1584200935).next_u32.1 = 4294967295 := by decide
    simp only [Xorshift32.next_double, h1]
    norm_num

theorem xorshift32_next_double_range_witness :
    (Xorshift32.new 1).state < 2 ^ 32
      ∧ ((Xorshift32.new 1).next_double.1
          = ((Xorshift32.new 1).next_u32.1 : ℚ) / (2 ^ 32 - 1 : ℚ)
        ∧ 0 ≤ (Xorshift32.new 1).next_double.1 ∧ (Xorshift32.new 1).next_double.1 ≤ 1
        ∧ ∃ seed, seed ≠ 0 ∧ seed < 2 ^ 32
            ∧ (Xorshift32.new seed).next_u32.1 = 4294967295
            ∧ (Xorshift32.new seed).next_double.1 = 1) :=
  ⟨by decide, xorshift32_next_double_range (Xorshift32.new 1) (by decide)⟩


/-- The default generator never fails: `n` draws give `n` values. -/
theorem LCG.run_default (n s : Nat) :
    ∃ us g, LCG.run n (LCG.default s) = some (us, g) ∧ us.length = n ∧ g.m = 2 ^ 32 := by
  cases n with
  | zero => exact ⟨[], LCG.default s, rfl, rfl, rfl⟩
  | succ k =>
    obtain ⟨us, s', h, hl, _⟩ := LCG.run_default_succ k s
    exact ⟨us, LCG.default s', h, hl, rfl⟩

theorem RANDU.run_outputs_length (n : Nat) (r : RANDU) : (RANDU.run n r).1.length = n := by
  induction n generalizing r with
  | zero => rfl
  | succ k ih => simp [RANDU.run, ih]

theorem Xorshift32.run_values_length (n : Nat) (g : Xorshift32) :
    (Xorshift32.run n g).1.length = n := by
  induction n generalizing g with
  | zero => rfl
  | succ k ih => simp [Xorshift32.run, ih]

/-- C11: `parse_type` returns `LCG`, `RANDU`, `XORSHIFT32`, `MT19937` for exactly
the strings `lcg`, `randu`, `xorshift32`, `mt19937`, and throws for every other
string; the comparison is exact, so `LCG`, `lcg` followed by a blank, and the
empty string are rejected. -/
theorem parse_type_exact (name : String) :
    (parse_type name = Except.ok PRNGType.LCG ↔ name = "lcg")
      ∧ (parse_type name = Except.ok PRNGType.RANDU ↔ name = "randu")
      ∧ (parse_type name = Except.ok PRNGType.XORSHIFT32 ↔ name = "xorshift32")
      ∧ (parse_type name = Except.ok PRNGType.MT19937 ↔ name = "mt19937")
      ∧ ((parse_type name = Except.error ("Unknown generator type: " ++ name))
          ↔ (name ≠ "lcg" ∧ name ≠ "randu" ∧ name ≠ "xorshift32" ∧ name ≠ "mt19937"))
      ∧ parse_type "LCG" = Except.error "Unknown generator type: LCG"
      ∧ parse_type "lcg " = Except.error "Unknown generator type: lcg "
      ∧ parse_type "" = Except.error "Unknown generator type: " := by
  refine ⟨?_, ?_, ?_, ?_, ?_, rfl, rfl, rfl⟩ <;>
  · simp only [parse_type]
    split_ifs <;> simp_all

/-- C12: for the LCG, RANDU and Xorshift32 variants, every seed and every `n`,
two generators constructed from the same seed give the same `n` values of
`next_u32` (and exactly `n` of them). -/
theorem same_seed_same_sequence (seed n : Nat) (g1 g2 : LCG) (r1 r2 : RANDU)
    (x1 x2 : Xorshift32)
    (hg : g1 = LCG.default seed ∧ g2 = LCG.default seed)
    (hr : r1 = RANDU.new seed ∧ r2 = RANDU.new seed)
    (hx : x1 = Xorshift32.new seed ∧ x2 = Xorshift32.new seed) :
    (∃ us, us.length = n ∧ (LCG.run n g1).map Prod.fst = some us
        ∧ (LCG.run n g2).map Prod.fst = some us)
      ∧ ((RANDU.run n r1).1 = (RANDU.run n r2).1 ∧ (RANDU.run n r1).1.length = n)
      ∧ ((Xorshift32.run n x1).1 = (Xorshift32.run n x2).1
          ∧ (Xorshift32.run n x1).1.length = n) := by
  obtain ⟨rfl, rfl⟩ := hg
  obtain ⟨rfl, rfl⟩ := hr
  obtain ⟨rfl, rfl⟩ := hx
  obtain ⟨us, g, h, hl, _⟩ := LCG.run_default n seed
  exact ⟨⟨us, hl, by simp [h], by simp [h]⟩, ⟨rfl, RANDU.run_outputs_length _ _⟩,
    ⟨rfl, Xorshift32.run_values_length _ _⟩⟩

theorem same_seed_same_sequence_witness :
    (LCG.default 42 = LCG.default 42 ∧ LCG.default 42 = LCG.default 42)
      ∧ (RANDU.new 42 = RANDU.new 42 ∧ RANDU.new 42 = RANDU.new 42)
      ∧ (Xorshift32.new 42 = Xorshift32.new 42 ∧ Xorshift32.new 42 = Xorshift32.new 42)
      ∧ ((∃ us, us.length = 3 ∧ (LCG.run 3 (LCG.default 42)).map Prod.fst = some us
          ∧ (LCG.run 3 (LCG.default 42)).map Prod.fst = some us)
        ∧ ((RANDU.run 3 (RANDU.new 42)).1 = (RANDU.run 3 (RANDU.new 42)).1
            ∧ (RANDU.run 3 (RANDU.new 42)).1.length = 3)
        ∧ ((Xorshift32.run 3 (Xorshift32.new 42)).1 = (Xorshift32.run 3 (Xorshift32.new 42)).1
            ∧ (Xorshift32.run 3 (Xorshift32.new 42)).1.length = 3)) :=
  ⟨⟨rfl, rfl⟩, ⟨rfl, rfl⟩, ⟨rfl, rfl⟩,
    same_seed_same_sequence 42 3 _ _ _ _ _ _ ⟨rfl, rfl⟩ ⟨rfl, rfl⟩ ⟨rfl, rfl⟩⟩


/-- C14: with at least four arguments after the program name, seed and count
texts that `std::stoull` accepts, and a generator name that is none of the four
recognised ones, `main` returns the non-zero status 1 with the diagnostic naming
the generator, and no output stream was opened, whether or not the path could
be opened. -/
theorem main_unknown_generator (env : Env)
    (prog name seedText countText out_path : String) (more : List String) (seed N : Nat)
    (hseed : stoull seedText = Except.ok seed) (hcount : stoull countText = Except.ok N)
    (hname : name ≠ "lcg" ∧ name ≠ "randu" ∧ name ≠ "xorshift32" ∧ name ≠ "mt19937") :
    main env (prog :: name :: seedText :: countText :: out_path :: more)
        = Outcome.returned 1 ["Unknown generator type: " ++ name ++ "\n"] none
      ∧ (1 : Nat) ≠ 0 := by
  obtain ⟨h1, h2, h3, h4⟩ := hname
  have hp : parse_type name = Except.error ("Unknown generator type: " ++ name) := by
    simp [parse_type, h1, h2, h3, h4]
  refine ⟨?_, by decide⟩
  simp only [main, hseed, hcount, hp]

theorem main_unknown_generator_witness :
    stoull "7" = Except.ok 7 ∧ stoull "3" = Except.ok 3
      ∧ ("LCG" ≠ "lcg" ∧ "LCG" ≠ "randu" ∧ "LCG" ≠ "xorshift32" ∧ "LCG" ≠ "mt19937")
      ∧ (main ⟨fun _ => true, fun _ _ => 0⟩ ("prog" :: "LCG" :: "7" :: "3" :: "out.csv" :: [])
          = Outcome.returned 1 ["Unknown generator type: " ++ "LCG" ++ "\n"] none
        ∧ (1 : Nat) ≠ 0) :=
  ⟨rfl, rfl, by decide,
    main_unknown_generator ⟨fun _ => true, fun _ _ => 0⟩ "prog" "LCG" "7" "3" "out.csv" [] 7 3
      rfl rfl (by decide)⟩


/-- C15, as stated, fails: the seed texts `12abc` and `-1` are not rejected.
`std::stoull` reads them as 12 and as `2 ^ 64 - 1`, and `main` returns 0 having
written the header and the first value of an LCG seeded with that number, just
as for the seed text `12`. -/
theorem main_coerces_seed_text :
    stoull "12abc" = Except.ok 12
      ∧ stoull "-1" = Except.ok 18446744073709551615
      ∧ main ⟨fun _ => true, fun _ _ => 0⟩ ["prog", "lcg", "12abc", "1", "out.csv"]
          = main ⟨fun _ => true, fun _ _ => 0⟩ ["prog", "lcg", "12", "1", "out.csv"]
      ∧ main ⟨fun _ => true, fun _ _ => 0⟩ ["prog", "lcg", "12abc", "1", "out.csv"]
          = Outcome.returned 0 []
              (some [Line.text "x",
                Line.value (((1664525 * 12 + 1013904223 : Nat) : ℚ) / (4294967296 : Nat))])
      ∧ main ⟨fun _ => true, fun _ _ => 0⟩ ["prog", "lcg", "-1", "1", "out.csv"]
          = Outcome.returned 0 []
              (some [Line.text "x",
                Line.value
                  ((((1664525 * 18446744073709551615 + 1013904223) % 2 ^ 32 : Nat) : ℚ)
                    / (4294967296 : Nat))]) := by
  refine ⟨rfl, rfl, rfl, ?_, ?_⟩
  · rfl
  · rfl

/-- C15, amended: when `std::stoull` throws on the seed text, or accepts the
seed text and throws on the count text, `main` ends with that exception before
the generator name is resolved, the output opened or a generator constructed,
whatever the other arguments are.  It throws on text with no decimal digit after
optional white space and sign (`abc`, the empty text, a lone `-`) and on numbers
above `2 ^ 64 - 1`. -/
theorem main_stoull_throws (env : Env)
    (prog name seedText countText out_path : String) (more : List String)
    (e : StoullError)
    (h : stoull seedText = Except.error e
      ∨ ∃ seed, stoull seedText = Except.ok seed ∧ stoull countText = Except.error e) :
    main env (prog :: name :: seedText :: countText :: out_path :: more)
        = Outcome.terminated e
      ∧ stoull "abc" = Except.error StoullError.invalid_argument
      ∧ stoull "" = Except.error StoullError.invalid_argument
      ∧ stoull "-" = Except.error StoullError.invalid_argument
      ∧ stoull "18446744073709551616" = Except.error StoullError.out_of_range := by
  refine ⟨?_, rfl, rfl, rfl, rfl⟩
  rcases h with h | ⟨seed, h1, h2⟩
  · simp only [main, h]
  · simp only [main, h1, h2]

theorem main_stoull_throws_witness :
    (stoull "abc" = Except.error StoullError.invalid_argument
        ∨ ∃ seed, stoull "abc" = Except.ok seed
            ∧ stoull "5" = Except.error StoullError.invalid_argument)
      ∧ (main ⟨fun _ => true, fun _ _ => 0⟩ ("prog" :: "lcg" :: "abc" :: "5" :: "out.csv" :: [])
          = Outcome.terminated StoullError.invalid_argument
        ∧ stoull "abc" = Except.error StoullError.invalid_argument
        ∧ stoull "" = Except.error StoullError.invalid_argument
        ∧ stoull "-" = Except.error StoullError.invalid_argument
        ∧ stoull "18446744073709551616" = Except.error StoullError.out_of_range) :=
  ⟨Or.inl rfl,
    main_stoull_throws ⟨fun _ => true, fun _ _ => 0⟩ "prog" "lcg" "abc" "5" "out.csv" []
      StoullError.invalid_argument (Or.inl rfl)⟩


/-- The wrapped left shift distributes over xor. -/
theorem shl_xor (k x y : Nat) :
    ((x ^^^ y) <<< k) % 2 ^ 32 = ((x <<< k) % 2 ^ 32) ^^^ ((y <<< k) % 2 ^ 32) := by
  apply Nat.eq_of_testBit_eq
  intro i
  simp only [Nat.testBit_xor, Nat.testBit_mod_two_pow, Nat.testBit_shiftLeft]
  by_cases h1 : i < 32 <;> by_cases h2 : k ≤ i <;> simp [h1, h2]

/-- The right shift distributes over xor. -/
theorem shr_xor (k x y : Nat) : (x ^^^ y) >>> k = (x >>> k) ^^^ (y >>> k) := by
  apply Nat.eq_of_testBit_eq
  intro i
  simp only [Nat.testBit_xor, Nat.testBit_shiftRight]

/-- Regrouping of a xor of four terms. -/
theorem xor_regroup (a b c d : Nat) : (a ^^^ b) ^^^ (c ^^^ d) = (a ^^^ c) ^^^ (b ^^^ d) := by
  apply Nat.eq_of_testBit_eq
  intro i
  simp only [Nat.testBit_xor]
  cases a.testBit i <;> cases b.testBit i <;> cases c.testBit i <;> cases d.testBit i <;> rfl

/-- The stage `x ^= x << k` (wrapped at 32 bits) is injective when a value equal
to its own shift is zero. -/
theorem shl_stage_injective (k : Nat)
    (hfix : ∀ z, z = (z <<< k) % 2 ^ 32 → z = 0) (x y : Nat)
    (h : x ^^^ ((x <<< k) % 2 ^ 32) = y ^^^ ((y <<< k) % 2 ^ 32)) : x = y := by
  have hz : (x ^^^ y) ^^^ (((x ^^^ y) <<< k) % 2 ^ 32) = 0 := by
    rw [shl_xor, xor_regroup, h, Nat.xor_self]
  exact Nat.xor_eq_zero.mp (hfix _ (Nat.xor_eq_zero.mp hz))

/-- The stage `x ^= x >> 17` is injective. -/
theorem shr17_stage_injective (x y : Nat)
    (h : x ^^^ (x >>> 17) = y ^^^ (y >>> 17)) : x = y := by
  have hz : (x ^^^ y) ^^^ ((x ^^^ y) >>> 17) = 0 := by
    rw [shr_xor, xor_regroup, h, Nat.xor_self]
  exact Nat.xor_eq_zero.mp (shr17_fixed _ (Nat.xor_eq_zero.mp hz))

/-- The xorshift step is injective. -/
theorem Xorshift32.step_injective (x y : Nat)
    (h : Xorshift32.step x = Xorshift32.step y) : x = y := by
  simp only [Xorshift32.step] at h
  have h2 := shl_stage_injective 5 shl5_fixed _ _ h
  have h1 := shr17_stage_injective _ _ h2
  exact shl_stage_injective 13 shl13_fixed _ _ h1

/-- Every 32-bit value is the step of some 32-bit value: an injective map of a
finite set into itself is onto. -/
theorem Xorshift32.step_surjective (y : Nat) (hy : y < 2 ^ 32) :
    ∃ x, x < 2 ^ 32 ∧ Xorshift32.step x = y := by
  have hinj : Function.Injective
      (fun x : Fin (2 ^ 32) => (⟨Xorshift32.step x.1, Xorshift32.step_lt x.1 x.2⟩ : Fin (2 ^ 32))) := by
    intro a b hab
    apply Fin.ext
    exact Xorshift32.step_injective _ _ (congrArg Fin.val hab)
  obtain ⟨x, hx⟩ := Finite.injective_iff_surjective.mp hinj ⟨y, hy⟩
  exact ⟨x.1, x.2, congrArg Fin.val hx⟩

theorem RANDU.next_u32_zero_iff (r : RANDU) (h : r.state < 2 ^ 32) :
    r.next_u32.1 = 0 ↔ r.state % 2 ^ 31 = 0 := by
  simp only [RANDU.next_u32_eq r h]
  omega

theorem RANDU.next_u32_state (r : RANDU) (h : r.state < 2 ^ 32) :
    r.next_u32.2.state = r.next_u32.1 ∧ r.next_u32.1 < 2 ^ 31 := by
  refine ⟨rfl, ?_⟩
  rw [RANDU.next_u32_eq r h]
  exact Nat.mod_lt _ (by norm_num)

theorem RANDU.run_zero_iff (n : Nat) (r : RANDU) (h : r.state < 2 ^ 32) :
    ∀ u ∈ (RANDU.run n r).1, (u = 0 ↔ r.state % 2 ^ 31 = 0) := by
  induction n generalizing r with
  | zero => simp [RANDU.run]
  | succ k ih =>
    obtain ⟨hst, hlt⟩ := RANDU.next_u32_state r h
    have hz := RANDU.next_u32_zero_iff r h
    intro u hu
    simp only [RANDU.run, List.mem_cons] at hu
    rcases hu with rfl | hu
    · exact hz
    · have := ih r.next_u32.2 (by omega) u hu
      rw [this, hst, ← hz]
      omega

theorem RANDU.two_steps (r : RANDU) (h : r.state < 2 ^ 32) :
    ((r.next_u32.2.next_u32.1 : ℕ) : ℤ)
      ≡ 6 * ((r.next_u32.1 : ℕ) : ℤ) - 9 * ((r.state : ℕ) : ℤ) [ZMOD 2 ^ 31] := by
  obtain ⟨hst, hlt⟩ := RANDU.next_u32_state r h
  rw [RANDU.next_u32_eq r.next_u32.2 (by omega), hst]
  simp only [RANDU.next_u32_eq r h]
  unfold Int.ModEq
  omega

theorem RANDU.three_consecutive (k : Nat) (r : RANDU) (h : r.state < 2 ^ 32) :
    ∃ x y z, (RANDU.run (k + 3) r).1.drop k = [x, y, z]
      ∧ (z : ℤ) ≡ 6 * (y : ℤ) - 9 * (x : ℤ) [ZMOD 2 ^ 31] := by
  induction k generalizing r with
  | zero =>
    obtain ⟨hst, hlt⟩ := RANDU.next_u32_state r h
    refine ⟨r.next_u32.1, r.next_u32.2.next_u32.1, r.next_u32.2.next_u32.2.next_u32.1, rfl, ?_⟩
    have := RANDU.two_steps r.next_u32.2 (by omega)
    rw [hst] at this
    exact this
  | succ j ih =>
    obtain ⟨hst, hlt⟩ := RANDU.next_u32_state r h
    obtain ⟨x, y, z, hd, hrel⟩ := ih r.next_u32.2 (by omega)
    refine ⟨x, y, z, ?_, hrel⟩
    have e : RANDU.run (j + 1 + 3) r
        = (r.next_u32.1 :: (RANDU.run (j + 3) r.next_u32.2).1,
            (RANDU.run (j + 3) r.next_u32.2).2) := rfl
    rw [e]
    simpa using hd

theorem LCG.run_default_congr (n s k : Nat) :
    (LCG.run n (LCG.default (s + k * 2 ^ 32))).map Prod.fst
      = (LCG.run n (LCG.default s)).map Prod.fst := by
  cases n with
  | zero => rfl
  | succ j =>
    have e : (1664525 * (s + k * 2 ^ 32) + 1013904223) % 2 ^ 32
        = (1664525 * s + 1013904223) % 2 ^ 32 := by omega
    rw [LCG.run, LCG.run, LCG.next_u32_default, LCG.next_u32_default, e]


/-- C16: the Xorshift32 step is a bijection of the 32-bit values: it maps them
to 32-bit values, two different states never have the same next state, and
every 32-bit value has exactly one 32-bit predecessor. -/
theorem xorshift32_step_bijective :
    (∀ x, x < 2 ^ 32 → Xorshift32.step x < 2 ^ 32)
      ∧ (∀ x y, x < 2 ^ 32 → y < 2 ^ 32 → x ≠ y → Xorshift32.step x ≠ Xorshift32.step y)
      ∧ (∀ g1 g2 : Xorshift32, g1.state ≠ g2.state → g1.next_u32.2.state ≠ g2.next_u32.2.state)
      ∧ (∀ y, y < 2 ^ 32 → ∃! x, x < 2 ^ 32 ∧ Xorshift32.step x = y) := by
  refine ⟨Xorshift32.step_lt, ?_, ?_, ?_⟩
  · intro x y _ _ hne h
    exact hne (Xorshift32.step_injective x y h)
  · intro g1 g2 hne h
    exact hne (Xorshift32.step_injective _ _ h)
  · intro y hy
    obtain ⟨x, hx, hxy⟩ := Xorshift32.step_surjective y hy
    refine ⟨x, ⟨hx, hxy⟩, ?_⟩
    rintro x2 ⟨_, hx2⟩
    exact Xorshift32.step_injective _ _ (hx2.trans hxy.symm)

/-- C17: for every 32-bit RANDU starting state `s`, also one of `2 ^ 31` or
more, the first two values `x1`, `x2` of `next_u32` satisfy
`x2 ≡ 6 * x1 - 9 * s (mod 2 ^ 31)`, and any three consecutive values `x`, `y`,
`z` of a run (those at positions `k`, `k + 1`, `k + 2`) satisfy
`z ≡ 6 * y - 9 * x (mod 2 ^ 31)`. -/
theorem randu_three_term_relation (s k : Nat) (hs : s < 2 ^ 32) :
    (((RANDU.new s).next_u32.2.next_u32.1 : ℕ) : ℤ)
        ≡ 6 * (((RANDU.new s).next_u32.1 : ℕ) : ℤ) - 9 * (s : ℤ) [ZMOD 2 ^ 31]
      ∧ ∃ x y z, (RANDU.run (k + 3) (RANDU.new s)).1.drop k = [x, y, z]
          ∧ (z : ℤ) ≡ 6 * (y : ℤ) - 9 * (x : ℤ) [ZMOD 2 ^ 31] :=
  ⟨RANDU.two_steps (RANDU.new s) hs, RANDU.three_consecutive k (RANDU.new s) hs⟩

theorem randu_three_term_relation_witness :
    (2147483649 : Nat) < 2 ^ 32
      ∧ ((((RANDU.new 2147483649).next_u32.2.next_u32.1 : ℕ) : ℤ)
          ≡ 6 * (((RANDU.new 2147483649).next_u32.1 : ℕ) : ℤ) - 9 * ((2147483649 : ℕ) : ℤ)
            [ZMOD 2 ^ 31]
        ∧ ∃ x y z, (RANDU.run (2 + 3) (RANDU.new 2147483649)).1.drop 2 = [x, y, z]
            ∧ (z : ℤ) ≡ 6 * (y : ℤ) - 9 * (x : ℤ) [ZMOD 2 ^ 31]) :=
  ⟨by decide, randu_three_term_relation 2147483649 2 (by decide)⟩

/-- C18: for every 32-bit RANDU state `s`, `next_u32` returns 0 exactly when `s`
is 0 or `2 ^ 31`; a generator seeded with 0 or `2 ^ 31` returns 0 on every
draw of every run, and one seeded with any other 32-bit value never returns
0. -/
theorem randu_zero_absorbing (s : Nat) (hs : s < 2 ^ 32) :
    ((RANDU.new s).next_u32.1 = 0 ↔ (s = 0 ∨ s = 2 ^ 31))
      ∧ ((s = 0 ∨ s = 2 ^ 31) → ∀ n, ∀ u ∈ (RANDU.run n (RANDU.new s)).1, u = 0)
      ∧ (¬ (s = 0 ∨ s = 2 ^ 31) → ∀ n, ∀ u ∈ (RANDU.run n (RANDU.new s)).1, u ≠ 0) := by
  have hmul : s % 2 ^ 31 = 0 ↔ (s = 0 ∨ s = 2 ^ 31) := by omega
  have hst : (RANDU.new s).state = s := rfl
  refine ⟨?_, ?_, ?_⟩
  · rw [RANDU.next_u32_zero_iff (RANDU.new s) hs, hst, hmul]
  · intro h n u hu
    exact (RANDU.run_zero_iff n (RANDU.new s) hs u hu).mpr (hmul.mpr h)
  · intro h n u hu h0
    exact h (hmul.mp ((RANDU.run_zero_iff n (RANDU.new s) hs u hu).mp h0))

theorem randu_zero_absorbing_witness :
    (2147483648 : Nat) < 2 ^ 32
      ∧ (((RANDU.new 2147483648).next_u32.1 = 0 ↔ (2147483648 = 0 ∨ 2147483648 = 2 ^ 31))
        ∧ ((2147483648 = 0 ∨ 2147483648 = 2 ^ 31)
            → ∀ n, ∀ u ∈ (RANDU.run n (RANDU.new 2147483648)).1, u = 0)
        ∧ (¬ (2147483648 = 0 ∨ 2147483648 = 2 ^ 31)
            → ∀ n, ∀ u ∈ (RANDU.run n (RANDU.new 2147483648)).1, u ≠ 0)) :=
  ⟨by decide, randu_zero_absorbing 2147483648 (by decide)⟩

/-- C19: for the default-constant LCG the constructor stores the seed
un-narrowed, yet the seeds `s` and `s + k * 2 ^ 32` give the same `n` values of
`next_u32` for every `n`, namely those of the seed `s mod 2 ^ 32`. -/
theorem lcg_seed_low_bits (s k n : Nat) :
    (mainLCG (s + k * 2 ^ 32)).state = s + k * 2 ^ 32
      ∧ (LCG.run n (mainLCG (s + k * 2 ^ 32))).map Prod.fst
          = (LCG.run n (mainLCG s)).map Prod.fst
      ∧ (LCG.run n (mainLCG s)).map Prod.fst
          = (LCG.run n (mainLCG (s % 2 ^ 32))).map Prod.fst
      ∧ ∃ us, (LCG.run n (mainLCG s)).map Prod.fst = some us ∧ us.length = n := by
  refine ⟨rfl, LCG.run_default_congr n s k, ?_, ?_⟩
  · have h := LCG.run_default_congr n (s % 2 ^ 32) (s / 2 ^ 32)
    have e : s % 2 ^ 32 + s / 2 ^ 32 * 2 ^ 32 = s := by omega
    rw [e] at h
    exact h
  · obtain ⟨us, g, h, hl, _⟩ := LCG.run_default n s
    exact ⟨us, by simp [mainLCG, h], hl⟩

/-- C20: for the default-constant LCG and every state `s`, `next_u32` succeeds,
the new state (which is also the value returned) has the parity opposite to
that of `s` and so differs from `s`, and the value of the next draw has the
opposite parity again. -/
theorem lcg_parity_alternates (s : Nat) :
    ∃ u g u2 g2,
      (LCG.default s).next_u32 = some (u, g)
        ∧ g.state = u
        ∧ g.state % 2 ≠ s % 2
        ∧ g.state ≠ s
        ∧ g.next_u32 = some (u2, g2)
        ∧ u2 % 2 ≠ u % 2 := by
  refine ⟨(1664525 * s + 1013904223) % 2 ^ 32,
    LCG.default ((1664525 * s + 1013904223) % 2 ^ 32),
    (1664525 * ((1664525 * s + 1013904223) % 2 ^ 32) + 1013904223) % 2 ^ 32,
    LCG.default ((1664525 * ((1664525 * s + 1013904223) % 2 ^ 32) + 1013904223) % 2 ^ 32),
    LCG.next_u32_default s, rfl, ?_, ?_, LCG.next_u32_default _, ?_⟩
  · show (1664525 * s + 1013904223) % 2 ^ 32 % 2 ≠ s % 2
    omega
  · show (1664525 * s + 1013904223) % 2 ^ 32 ≠ s
    omega
  · omega

end SpectralPrng
